import Mathlib

/-!
Verification of the Pipeline Execution State Store of the tssc package
(`src/tssc/workflow_result.py`).

The embedding models Python values that can appear in an artifact mapping
as the inductive type `Val` (strings, booleans, and nested dictionaries).
Python dictionaries are modelled as insertion-ordered association lists
(`PyDict`); `pyLookup` is `d[k]` / `d.get(k)`, `pyContains` is `k in d`,
and `pyUpdate d m` is the dictionary `{**d, **m}` (also the result of
`d.update(m)`), whose key order is d's keys followed by m's new keys.

`WorkflowResult.merge_results` is embedded as a fuel-indexed recursion
(`mergeFuel`) whose fuel is the structural size of the first ("newer")
dictionary; the recursion in the Python source descends strictly into
values of that dictionary, so `dictSize d1` steps of fuel always suffice
(`mergeFuel_fuel_irrel`).  A `none` result models a raised exception: the
Python code raises `TypeError` when it recurses into
`merge_results(v_intersect, v_dict2)` with a non-mapping `v_dict2`,
because `{**v_dict2, **v_intersect}` requires both operands to be
mappings.
-/

/-- A Python value stored in an artifact mapping: a string, a boolean, or
a nested dictionary (insertion-ordered association list). -/
inductive Val where
  | vstr : String → Val
  | vbool : Bool → Val
  | vdict : List (String × Val) → Val
deriving Repr

/-- A Python dictionary with `Val` values, as an insertion-ordered
association list. -/
abbrev PyDict := List (String × Val)

/-- Python `d[k]` / `d.get(k)`: the value of the first entry with key `k`. -/
def pyLookup : PyDict → String → Option Val
  | [], _ => none
  | (k2, v) :: rest, k => if k2 = k then some v else pyLookup rest k

/-- Python `k in d`. -/
def pyContains (d : PyDict) (k : String) : Bool :=
  (pyLookup d k).isSome

/-- Python `{**d, **m}` (equivalently the content of `d` after
`d.update(m)`): `d`'s keys in order with values overridden by `m`,
followed by the keys of `m` not present in `d`, in `m`'s order. -/
def pyUpdate (d m : PyDict) : PyDict :=
  d.map (fun p => (p.1, (pyLookup m p.1).getD p.2)) ++
    m.filter (fun p => !(pyContains d p.1))

/-- The keys of `{**d2, **d1}`, in Python iteration order: the key list
the loop in `WorkflowResult.merge_results` iterates over
(`intersection.items()`). -/
def unionKeys (d2 d1 : PyDict) : List String :=
  (pyUpdate d2 d1).map Prod.fst

/-- Build a dictionary by running `f` on each key in order; `none`
aborts the whole construction (an exception in the Python loop). -/
def mapOpt (f : String → Option (String × Val)) : List String → Option PyDict
  | [] => some []
  | k :: rest =>
    match f k with
    | none => none
    | some p => (mapOpt f rest).map (fun ps => p :: ps)

mutual
/-- Structural size of a `Val` (used as recursion fuel). -/
def valSize : Val → Nat
  | .vstr _ => 1
  | .vbool _ => 1
  | .vdict l => 1 + dictSize l
/-- Structural size of a `PyDict` (used as recursion fuel). -/
def dictSize : List (String × Val) → Nat
  | [] => 1
  | (_, v) :: t => 1 + valSize v + dictSize t
end

/-- One iteration of the loop body of `WorkflowResult.merge_results` for
key `k`, parameterised by the recursive call `f`.  Mirrors the source:
`if k not in dict1: dict2[k]`, `elif k not in dict2: v_intersect`,
`elif isinstance(v_intersect, dict): merge_results(v_intersect, v_dict2)`
(which raises `TypeError` when `v_dict2` is not a mapping — modelled as
`none`), `else: v_intersect`; here `v_intersect` is `dict1[k]` because
`dict1`'s values win in `intersection = {**dict2, **dict1}`. -/
def mergeValWith (f : PyDict → PyDict → Option PyDict) (d1 d2 : PyDict) (k : String) :
    Option Val :=
  if pyContains d1 k = false then pyLookup d2 k
  else if pyContains d2 k = false then pyLookup d1 k
  else
    match pyLookup d1 k with
    | some (Val.vdict m1) =>
      match pyLookup d2 k with
      | some (Val.vdict m2) => (f m1 m2).map Val.vdict
      | _ => none
    | some v => some v
    | none => none

/-- Fuel-indexed form of `WorkflowResult.merge_results`: iterate over the
keys of `{**dict2, **dict1}` in order, computing each output entry with
`mergeValWith`; recursive merges run on one unit less fuel. -/
def mergeFuel : Nat → PyDict → PyDict → Option PyDict
  | 0, _, _ => none
  | f + 1, d1, d2 =>
    mapOpt (fun k => (mergeValWith (mergeFuel f) d1 d2 k).map (fun v => (k, v)))
      (unionKeys d2 d1)

namespace WorkflowResult

/-- Embedding of the static method `WorkflowResult.merge_results(dict1, dict2)`.
`dict1` is the newer mapping (its values take precedence), `dict2` the
older one.  `none` models a raised exception.  The fuel `dictSize d1`
always suffices because the recursion strictly descends into values of
`dict1` (see `mergeFuel_fuel_irrel`). -/
def merge_results (d1 d2 : PyDict) : Option PyDict :=
  mergeFuel (dictSize d1) d1 d2

end WorkflowResult

/-- One iteration of the compatibility check mirroring `mergeValWith`:
`true` exactly when that iteration would not raise and its recursive
merges would succeed. -/
def compatValWith (f : PyDict → PyDict → Bool) (d1 d2 : PyDict) (k : String) : Bool :=
  if pyContains d1 k = false then pyContains d2 k
  else if pyContains d2 k = false then pyContains d1 k
  else
    match pyLookup d1 k with
    | some (Val.vdict m1) =>
      match pyLookup d2 k with
      | some (Val.vdict m2) => f m1 m2
      | _ => false
    | some _ => true
    | none => false

/-- Fuel-indexed compatibility of two mappings: no key (recursively along
mutually mapping-shaped values) pairs a mapping-shaped newer value with a
non-mapping older value. -/
def compatFuel : Nat → PyDict → PyDict → Bool
  | 0, _, _ => false
  | f + 1, d1, d2 => (unionKeys d2 d1).all (compatValWith (compatFuel f) d1 d2)

/-- Two mappings are merge-compatible: the deep-merge never recurses into
a pair whose newer side is a mapping while the older side is not. -/
def compat (d1 d2 : PyDict) : Bool :=
  compatFuel (dictSize d1) d1 d2

/-- Is this (optional) value mapping-shaped?  Mirrors Python's
`isinstance(v, dict)` on the result of a lookup. -/
def isDictOpt : Option Val → Bool
  | some (Val.vdict _) => true
  | _ => false

/-- The value the deep-merge assigns to a key whose newer value is
mapping-shaped: the recursive merge of the two sub-mappings (absent when
the older value is not mapping-shaped or the recursive merge raises). -/
def recMergeAt (d1 d2 : PyDict) (k : String) : Option Val :=
  match pyLookup d1 k, pyLookup d2 k with
  | some (Val.vdict m1), some (Val.vdict m2) =>
    (WorkflowResult.merge_results m1 m2).map Val.vdict
  | _, _ => none

/-- Modelled from the spec: `StepResult` (the `tssc.step_result` module is
not under `src/`; only `workflow_result.py` which consumes it is).  Per
§3 of the spec a StageResult carries identity `(stage_name,
sub_stage_name)`, an implementer name, a success flag, a message, and an
artifact mapping; each artifact is a mapping with `description`, `type`
and `value` fields, matching the rendered shape documented in the
docstring of `WorkflowResult.get_step_result`.  The absent sub-stage name
is modelled as the empty string (the wire shape keys it as the empty
string). -/
structure StepResult where
  step_name : String
  sub_step_name : String
  implementer_name : String
  success : Bool
  message : String
  artifacts : PyDict
deriving Repr

/-- Modelled from the spec: `StepResult.get_artifact_value(name)` returns
the `value` field of the artifact with that name, or absent (`None`) when
the StepResult has no artifact of that name (§4.2: "return the artifact
with that name … or absent"). -/
def StepResult.get_artifact_value (sr : StepResult) (name : String) : Option Val :=
  match pyLookup sr.artifacts name with
  | some (Val.vdict a) => pyLookup a "value"
  | _ => none

/-- Modelled from the spec: `StepResult.get_sub_step_result()` renders one
entry into the wire shape given in the docstring of
`WorkflowResult.get_step_result` (`step-implementer-name`,
`sub-step-name`, `success`, `message`, `artifacts`). -/
def StepResult.get_sub_step_result (sr : StepResult) : Val :=
  Val.vdict
    [("step-implementer-name", Val.vstr sr.implementer_name),
     ("sub-step-name", Val.vstr sr.sub_step_name),
     ("success", Val.vbool sr.success),
     ("message", Val.vstr sr.message),
     ("artifacts", Val.vdict sr.artifacts)]

/-- Modelled from the spec: `StepResult.get_step_result()` wraps the
rendered entry under its stage name and sub-stage name, matching the
shape `WorkflowResult.get_all_step_results` folds over. -/
def StepResult.get_step_result (sr : StepResult) : PyDict :=
  [(sr.step_name, Val.vdict [(sr.sub_step_name, sr.get_sub_step_result)])]

/-- Embedding of the class `WorkflowResult`: its only state is
`self.__workflow_list`, the ordered list of StepResults. -/
structure WorkflowResult where
  workflow_list : List StepResult
deriving Repr

namespace WorkflowResult

/-- The scoped branch of `WorkflowResult.get_artifact_value` (both
`step_name` and `sub_step_name` given): scan the list; at the first entry
whose `step_name` and `sub_step_name` both match, read the artifact and
break. -/
def scanScopedLoop (s ss a : String) : List StepResult → Option Val
  | [] => none
  | sr :: rest =>
    if sr.step_name = s then
      if sr.sub_step_name = ss then sr.get_artifact_value a
      else scanScopedLoop s ss a rest
    else scanScopedLoop s ss a rest

/-- The stage-only branch of `WorkflowResult.get_artifact_value`: scan the
list carrying the loop variable `value`; at each entry whose `step_name`
matches, overwrite `value` with its artifact lookup and break when it is
not `None`. -/
def scanStepLoop (s a : String) : List StepResult → Option Val → Option Val
  | [], value => value
  | sr :: rest, value =>
    if sr.step_name = s then
      match sr.get_artifact_value a with
      | some v => some v
      | none => scanStepLoop s a rest none
    else scanStepLoop s a rest value

/-- The unscoped branch of `WorkflowResult.get_artifact_value`: scan all
entries carrying `value`; overwrite it with each entry's artifact lookup
and break when it is not `None`. -/
def scanAllLoop (a : String) : List StepResult → Option Val → Option Val
  | [], value => value
  | sr :: rest, _ =>
    match sr.get_artifact_value a with
    | some v => some v
    | none => scanAllLoop a rest none

/-- Embedding of `WorkflowResult.get_artifact_value(artifact, step_name,
sub_step_name)`: dispatch on which optional scope arguments are given,
exactly as the source's `if step_name is not None` / `if sub_step_name is
not None` nesting does. -/
def get_artifact_value (w : WorkflowResult) (a : String)
    (step_name sub_step_name : Option String) : Option Val :=
  match step_name with
  | some s =>
    match sub_step_name with
    | some ss => scanScopedLoop s ss a w.workflow_list
    | none => scanStepLoop s a w.workflow_list none
  | none => scanAllLoop a w.workflow_list none

/-- Embedding of `WorkflowResult.get_step_result_by_step_name`: the first
entry whose `step_name` and `sub_step_name` both match, if any. -/
def get_step_result_by_step_name (w : WorkflowResult) (s ss : String) :
    Option StepResult :=
  w.workflow_list.find? (fun c => c.step_name == s && c.sub_step_name == ss)

/-- The loop of `WorkflowResult.delete_step_result_by_name`:
`for i, current in enumerate(self.workflow_list): if current.step_name ==
step_name: del self.workflow_list[i]`.  Deleting from the live list while
its iterator advances makes the element that slides into position `i`
skip inspection; the fuel argument (initially the list length) bounds the
iterations, which is exact because the index grows by one per iteration
and the list never grows. -/
def delLoop : Nat → List StepResult → Nat → String → List StepResult
  | 0, l, _, _ => l
  | fuel + 1, l, i, s =>
    match l[i]? with
    | none => l
    | some c =>
      if c.step_name = s then delLoop fuel (l.eraseIdx i) (i + 1) s
      else delLoop fuel l (i + 1) s

/-- Embedding of `WorkflowResult.delete_step_result_by_name(step_name)`.
Note it filters on `step_name` alone (not the full identity) and mutates
the list during iteration. -/
def delete_step_result_by_name (w : WorkflowResult) (s : String) : WorkflowResult :=
  ⟨delLoop w.workflow_list.length w.workflow_list 0 s⟩

/-- Embedding of `WorkflowResult.add_step_result(step_result)` (the
upsert).  The `isinstance(step_result, StepResult)` guard always passes
in this typed embedding, so the `TSSCException` branch is unreachable.
When an entry with the same `(step_name, sub_step_name)` identity exists,
the artifact mappings are merged (`merge_results(new, old)`, newer side
first), `step_result.artifacts.update(merged)` replaces the new entry's
artifacts (modelled by `pyUpdate`), all entries matching `step_name` are
deleted through the skipping loop, and the merged entry is appended.
`none` models an exception escaping from the merge. -/
def add_step_result (w : WorkflowResult) (step_result : StepResult) :
    Option WorkflowResult :=
  match get_step_result_by_step_name w step_result.step_name step_result.sub_step_name with
  | some step_old =>
    match merge_results step_result.artifacts step_old.artifacts with
    | none => none
    | some merged =>
      let sr2 : StepResult :=
        { step_result with artifacts := pyUpdate step_result.artifacts merged }
      some ⟨(delete_step_result_by_name w step_result.step_name).workflow_list ++ [sr2]⟩
  | none => some ⟨w.workflow_list ++ [step_result]⟩

/-- The accumulating loop of `WorkflowResult.get_all_step_results`:
`all_results = merge_results(all_results, i.get_step_result())` for each
entry in order (the accumulator is the first, precedence-taking
argument).  `none` models an exception escaping from a merge. -/
def allResultsLoop : List StepResult → PyDict → Option PyDict
  | [], acc => some acc
  | sr :: rest, acc =>
    match merge_results acc sr.get_step_result with
    | none => none
    | some acc2 => allResultsLoop rest acc2

/-- Embedding of `WorkflowResult.get_all_step_results`: fold every
entry's rendered form into an accumulator and wrap it under
`tssc-results`. -/
def get_all_step_results (w : WorkflowResult) : Option PyDict :=
  match allResultsLoop w.workflow_list [] with
  | none => none
  | some all => some [("tssc-results", Val.vdict all)]

end WorkflowResult

/-- Descend into a rendered snapshot along a key path. -/
def getPath : Val → List String → Option Val
  | v, [] => some v
  | Val.vdict d, k :: ks =>
    match pyLookup d k with
    | some v => getPath v ks
    | none => none
  | _, _ :: _ => none

/-- A concrete StepResult for stage `build`, sub-stage `x`. -/
def srBX : StepResult :=
  ⟨"build", "x", "implX", true, "",
   [("u", Val.vdict [("description", Val.vstr "du"),
                     ("type", Val.vstr "str"),
                     ("value", Val.vstr "1")])]⟩

/-- A concrete StepResult for stage `build`, sub-stage `y`. -/
def srBY : StepResult :=
  ⟨"build", "y", "implY", true, "",
   [("v", Val.vdict [("description", Val.vstr "dv"),
                     ("type", Val.vstr "str"),
                     ("value", Val.vstr "2")])]⟩

/-- The store obtained by upserting `srBX` then `srBY` into an empty
store: both succeed and the list holds both entries in order. -/
def wBXY : Option WorkflowResult :=
  (WorkflowResult.add_step_result ⟨[]⟩ srBX).bind
    (fun w => WorkflowResult.add_step_result w srBY)

/-- The store after a further upsert of (an identical copy of) `srBY`. -/
def wBXYY : Option WorkflowResult :=
  wBXY.bind (fun w => WorkflowResult.add_step_result w srBY)

/-- Identity projection of a store: the list of
`(step_name, sub_step_name)` pairs in order. -/
def identityList (w : WorkflowResult) : List (String × String) :=
  w.workflow_list.map (fun sr => (sr.step_name, sr.sub_step_name))

/-- What the bytes of the snapshot file deserialize to under
`pickle.load`: either a `WorkflowResult` instance or some other object
(the `isinstance` check in `load_from_pickle_file` distinguishes them). -/
inductive PickleValue where
  | workflowResult (w : WorkflowResult)
  | otherData
deriving Repr

/-- Content of the snapshot file when it exists: zero-length, or
non-empty bytes that deserialize to a `PickleValue`. -/
inductive FileContent where
  | emptyFile
  | pickled (v : PickleValue)
deriving Repr

/-- The slice of the filesystem state that
`WorkflowResult.load_from_pickle_file` / `write_to_pickle_file` observe
and mutate for one snapshot path: whether `os.path.dirname(filename)` is
non-empty, whether that directory exists, and the file itself (`none`
when `os.path.isfile` is false). -/
structure FileSys where
  parentNonempty : Bool
  dirExists : Bool
  file : Option FileContent
deriving Repr

namespace WorkflowResult

/-- Embedding of the static method `WorkflowResult.folder_create(filename)`:
`path = os.path.dirname(filename); if path and not os.path.exists(path):
os.makedirs(...)`. -/
def folder_create (fs : FileSys) : FileSys :=
  if fs.parentNonempty && !fs.dirExists then
    { fs with dirExists := true }
  else fs

/-- Embedding of the static method
`WorkflowResult.load_from_pickle_file(pickle_filename)`.  It first calls
`folder_create` (a filesystem write), then returns an empty store when
the file is missing or zero-length, the deserialized store when the
content is a `WorkflowResult`, and raises `TSSCException` (modelled as
`Except.error`) when the content deserializes to anything else.  The
result pairs the post-call filesystem state with the outcome. -/
def load_from_pickle_file (fs : FileSys) : FileSys × Except String WorkflowResult :=
  match (folder_create fs).file with
  | none => (folder_create fs, Except.ok ⟨[]⟩)
  | some FileContent.emptyFile => (folder_create fs, Except.ok ⟨[]⟩)
  | some (FileContent.pickled (PickleValue.workflowResult w)) =>
    (folder_create fs, Except.ok w)
  | some (FileContent.pickled PickleValue.otherData) =>
    (folder_create fs, Except.error "has invalid data")

/-- Embedding of `WorkflowResult.write_to_pickle_file(pickle_filename)`:
`folder_create` then `pickle.dump(self, file)`.  The pickle codec is
modelled as exact: the written bytes are non-empty and deserialize back
to the same object graph. -/
def write_to_pickle_file (w : WorkflowResult) (fs : FileSys) : FileSys :=
  { folder_create fs with
    file := some (FileContent.pickled (PickleValue.workflowResult w)) }

end WorkflowResult

/-- Spec-side definition (§4.2 query, both scopes given), following the
spec's words: "return the artifact with that name from the unique entry
with that exact identity, or absent if no such entry or no such
artifact". -/
def specScopedQuery (w : WorkflowResult) (s ss a : String) : Option Val :=
  match w.workflow_list.filter (fun t => t.step_name == s && t.sub_step_name == ss) with
  | [sr] => sr.get_artifact_value a
  | _ => none

/-- Spec-side definition (§4.2 query, only `stage_name` given), following
the spec's words: "scan entries in store order, return the artifact from
the first entry whose `stage_name` matches that has an artifact of that
name; absent if none match". -/
def specStageQuery (w : WorkflowResult) (s a : String) : Option Val :=
  (w.workflow_list.find?
      (fun t => t.step_name == s && (t.get_artifact_value a).isSome)).bind
    (fun t => t.get_artifact_value a)

/-- Spec-side definition (§4.2 query, neither scope given), following the
spec's words: "scan all entries in store order, return the artifact of
that name from the first entry that has one; absent if none match". -/
def specAnyQuery (w : WorkflowResult) (a : String) : Option Val :=
  (w.workflow_list.find? (fun t => (t.get_artifact_value a).isSome)).bind
    (fun t => t.get_artifact_value a)

/-- Concrete newer mapping for exercising the merge characterization. -/
def d1C : PyDict := [("a", Val.vstr "A"), ("c", Val.vdict [("x", Val.vstr "1")])]

/-- Concrete older mapping for exercising the merge characterization. -/
def d2C : PyDict := [("c", Val.vdict [("y", Val.vstr "2")]), ("b", Val.vstr "B")]

/-- The merge of `d1C` (newer) and `d2C` (older). -/
def outC : PyDict :=
  [("c", Val.vdict [("y", Val.vstr "2"), ("x", Val.vstr "1")]),
   ("b", Val.vstr "B"), ("a", Val.vstr "A")]

theorem dictSize_pos (d : PyDict) : 0 < dictSize d := by
  cases d with
  | nil => simp [dictSize]
  | cons p t => cases p; simp [dictSize]

theorem pyLookup_mem {d : PyDict} {k : String} {v : Val}
    (h : pyLookup d k = some v) : (k, v) ∈ d := by
  induction d with
  | nil => simp [pyLookup] at h
  | cons p t ih =>
    cases p with
    | mk k2 v2 =>
      by_cases hk : k2 = k
      · subst hk
        simp [pyLookup] at h
        subst h
        exact List.mem_cons_self _ _
      · simp [pyLookup, hk] at h
        exact List.mem_cons_of_mem _ (ih h)

theorem pyLookup_dictSize {d : PyDict} {k : String} {m : List (String × Val)}
    (h : pyLookup d k = some (Val.vdict m)) : dictSize m < dictSize d := by
  induction d with
  | nil => simp [pyLookup] at h
  | cons p t ih =>
    cases p with
    | mk k2 v2 =>
      by_cases hk : k2 = k
      · subst hk
        simp [pyLookup] at h
        subst h
        simp [dictSize, valSize]
        omega
      · simp [pyLookup, hk] at h
        have := ih h
        simp [dictSize]
        omega

theorem pyContains_iff_mem_keys (d : PyDict) (k : String) :
    pyContains d k = true ↔ k ∈ d.map Prod.fst := by
  induction d with
  | nil => simp [pyContains, pyLookup]
  | cons p t ih =>
    cases p with
    | mk k2 v2 =>
      by_cases hk : k2 = k
      · subst hk
        simp [pyContains, pyLookup]
      · simp only [pyContains, pyLookup, if_neg hk, List.map_cons, List.mem_cons]
        rw [pyContains] at ih
        rw [ih]
        constructor
        · exact fun h => Or.inr h
        · rintro (h | h)
          · exact absurd h.symm hk
          · exact h

theorem mem_unionKeys (d2 d1 : PyDict) (k : String) :
    k ∈ unionKeys d2 d1 ↔ (pyContains d2 k = true ∨ pyContains d1 k = true) := by
  unfold unionKeys pyUpdate
  rw [List.map_append, List.mem_append, List.map_map]
  constructor
  · rintro (h | h)
    · left
      rw [pyContains_iff_mem_keys]
      simpa using h
    · right
      rw [pyContains_iff_mem_keys]
      rcases List.mem_map.1 h with ⟨p, hp, hpk⟩
      exact List.mem_map.2 ⟨p, (List.mem_filter.1 hp).1, hpk⟩
  · intro h
    by_cases h2 : pyContains d2 k = true
    · left
      rw [pyContains_iff_mem_keys] at h2
      simpa using h2
    · have h1 : pyContains d1 k = true := by tauto
      right
      cases hv : pyLookup d1 k with
      | none => rw [pyContains, hv] at h1; simp at h1
      | some v =>
        refine List.mem_map.2 ⟨(k, v), List.mem_filter.2 ⟨pyLookup_mem hv, ?_⟩, rfl⟩
        simp [h2]

theorem mapOpt_congr {f g : String → Option (String × Val)} {l : List String}
    (h : ∀ k ∈ l, f k = g k) : mapOpt f l = mapOpt g l := by
  induction l with
  | nil => rfl
  | cons k rest ih =>
    simp only [mapOpt]
    rw [h k (List.mem_cons_self _ _), ih (fun k2 hk2 => h k2 (List.mem_cons_of_mem _ hk2))]

theorem mergeValWith_congr {f1 f2 : PyDict → PyDict → Option PyDict}
    (d1 d2 : PyDict) (k : String)
    (h : ∀ m1 m2, pyLookup d1 k = some (Val.vdict m1) → f1 m1 m2 = f2 m1 m2) :
    mergeValWith f1 d1 d2 k = mergeValWith f2 d1 d2 k := by
  unfold mergeValWith
  by_cases h1 : pyContains d1 k = false
  · simp [h1]
  · simp only [if_neg h1]
    by_cases h2 : pyContains d2 k = false
    · simp [h2]
    · simp only [if_neg h2]
      cases hl : pyLookup d1 k with
      | none => rfl
      | some v =>
        cases v with
        | vstr s => rfl
        | vbool b => rfl
        | vdict m1 =>
          cases pyLookup d2 k with
          | none => rfl
          | some v2 =>
            cases v2 with
            | vstr s => rfl
            | vbool b => rfl
            | vdict m2 =>
              show Option.map Val.vdict (f1 m1 m2) = Option.map Val.vdict (f2 m1 m2)
              rw [h m1 m2 hl]

theorem mergeFuel_fuel_irrel :
    ∀ (f g : Nat) (d1 d2 : PyDict), dictSize d1 ≤ f → dictSize d1 ≤ g →
      mergeFuel f d1 d2 = mergeFuel g d1 d2 := by
  intro f
  induction f with
  | zero =>
    intro g d1 d2 h1 _
    have := dictSize_pos d1
    omega
  | succ f ih =>
    intro g d1 d2 h1 h2
    cases g with
    | zero =>
      have := dictSize_pos d1
      omega
    | succ g2 =>
      show mapOpt _ _ = mapOpt _ _
      apply mapOpt_congr
      intro k _
      have hval : mergeValWith (mergeFuel f) d1 d2 k
          = mergeValWith (mergeFuel g2) d1 d2 k := by
        apply mergeValWith_congr
        intro m1 m2 hm
        have hsz := pyLookup_dictSize hm
        exact ih g2 m1 m2 (by omega) (by omega)
      rw [hval]

theorem mapOpt_lookup_mem {hv : String → Option Val} :
    ∀ {ks : List String} {out : PyDict},
      mapOpt (fun k => (hv k).map (fun v => (k, v))) ks = some out →
      ∀ k ∈ ks, ∃ v, hv k = some v ∧ pyLookup out k = some v := by
  intro ks
  induction ks with
  | nil => intro out _ k hk; simp at hk
  | cons k0 rest ih =>
    intro out h k hk
    simp only [mapOpt] at h
    cases h0 : hv k0 with
    | none => rw [h0] at h; simp at h
    | some v0 =>
      rw [h0] at h
      simp only [Option.map_some'] at h
      cases hrest : mapOpt (fun k => (hv k).map (fun v => (k, v))) rest with
      | none => rw [hrest] at h; simp at h
      | some out2 =>
        rw [hrest] at h
        simp only [Option.map_some'] at h
        cases h
        by_cases hkk : k0 = k
        · subst hkk
          exact ⟨v0, h0, by simp [pyLookup]⟩
        · have hkr : k ∈ rest := by
            rcases List.mem_cons.1 hk with h2 | h2
            · exact absurd h2.symm hkk
            · exact h2
          rcases ih hrest k hkr with ⟨v, hv1, hv2⟩
          exact ⟨v, hv1, by simp [pyLookup, hkk, hv2]⟩

theorem mapOpt_lookup_not_mem {hv : String → Option Val} :
    ∀ {ks : List String} {out : PyDict},
      mapOpt (fun k => (hv k).map (fun v => (k, v))) ks = some out →
      ∀ k, k ∉ ks → pyLookup out k = none := by
  intro ks
  induction ks with
  | nil =>
    intro out h k _
    simp only [mapOpt] at h
    cases h
    rfl
  | cons k0 rest ih =>
    intro out h k hk
    simp only [mapOpt] at h
    cases h0 : hv k0 with
    | none => rw [h0] at h; simp at h
    | some v0 =>
      rw [h0] at h
      cases hrest : mapOpt (fun k => (hv k).map (fun v => (k, v))) rest with
      | none => rw [hrest] at h; simp at h
      | some out2 =>
        rw [hrest] at h
        simp only [Option.map_some'] at h
        cases h
        have hne : k0 ≠ k := fun he => hk (he ▸ List.mem_cons_self _ _)
        have hkr : k ∉ rest := fun hr => hk (List.mem_cons_of_mem _ hr)
        simp [pyLookup, hne, ih hrest k hkr]

theorem mapOpt_isSome (f : String → Option (String × Val)) (l : List String) :
    (mapOpt f l).isSome = l.all (fun k => (f k).isSome) := by
  induction l with
  | nil => rfl
  | cons k rest ih =>
    simp only [mapOpt, List.all_cons]
    cases h : f k with
    | none => rfl
    | some p =>
      simp only [Option.isSome_some, Bool.true_and]
      rw [← ih]
      cases mapOpt f rest <;> rfl

theorem mergeFuel_succ (f : Nat) (d1 d2 : PyDict) :
    mergeFuel (f + 1) d1 d2
      = mapOpt (fun k => (mergeValWith (mergeFuel f) d1 d2 k).map (fun v => (k, v)))
          (unionKeys d2 d1) := rfl

theorem mergeValWith_isSome (f : Nat)
    (ih : ∀ m1 m2, (mergeFuel f m1 m2).isSome = compatFuel f m1 m2)
    (d1 d2 : PyDict) (k : String) :
    (mergeValWith (mergeFuel f) d1 d2 k).isSome = compatValWith (compatFuel f) d1 d2 k := by
  unfold mergeValWith compatValWith
  by_cases h1 : pyContains d1 k = false
  · simp only [if_pos h1]; rfl
  · simp only [if_neg h1]
    by_cases h2 : pyContains d2 k = false
    · simp only [if_pos h2]; rfl
    · simp only [if_neg h2]
      cases pyLookup d1 k with
      | none => rfl
      | some v =>
        cases v with
        | vstr s => rfl
        | vbool b => rfl
        | vdict m1 =>
          cases pyLookup d2 k with
          | none => rfl
          | some v2 =>
            cases v2 with
            | vstr s => rfl
            | vbool b => rfl
            | vdict m2 =>
              show ((mergeFuel f m1 m2).map Val.vdict).isSome = compatFuel f m1 m2
              rw [← ih m1 m2]
              cases mergeFuel f m1 m2 <;> rfl

theorem mergeFuel_isSome_eq (f : Nat) :
    ∀ (d1 d2 : PyDict), (mergeFuel f d1 d2).isSome = compatFuel f d1 d2 := by
  induction f with
  | zero => intro d1 d2; rfl
  | succ f ih =>
    intro d1 d2
    rw [mergeFuel_succ, mapOpt_isSome]
    show List.all _ _ = List.all _ _
    have hpt : ∀ k, ((mergeValWith (mergeFuel f) d1 d2 k).map (fun v => (k, v))).isSome
        = compatValWith (compatFuel f) d1 d2 k := by
      intro k
      have h2 := mergeValWith_isSome f ih d1 d2 k
      cases hm : mergeValWith (mergeFuel f) d1 d2 k <;> rw [hm] at h2 <;> simpa using h2
    exact congrArg (List.all (unionKeys d2 d1)) (funext hpt)

theorem pyContains_false_lookup {d : PyDict} {k : String}
    (h : pyContains d k = false) : pyLookup d k = none := by
  rw [pyContains] at h
  cases hv : pyLookup d k
  · rfl
  · rw [hv] at h; simp at h

theorem pyContains_true_lookup {d : PyDict} {k : String}
    (h : pyContains d k = true) : ∃ v, pyLookup d k = some v := by
  rw [pyContains] at h
  cases hv : pyLookup d k
  · rw [hv] at h; simp at h
  · exact ⟨_, rfl⟩

/-- C1 (amended): whenever `merge_results newer older` returns a mapping
(`some out`), that mapping's key set is the union of both key sets; a key
present only in `older` keeps `older`'s value; a key present only in
`newer` keeps `newer`'s value; a key whose `newer` value is
mapping-shaped maps to the recursive deep-merge of the two sub-mappings
(and the merge returning at all forces `older`'s value there to be
mapping-shaped too); and a key present on both sides whose `newer` value
is not mapping-shaped maps to `newer`'s value.  The original claim's
"any other key present on both sides maps to newer's value" fails when
`newer`'s value is mapping-shaped and `older`'s is not: there the code
raises `TypeError` instead of returning (see the counterexample). -/
theorem c1_merge_characterization (d1 d2 out : PyDict) (k : String)
    (h : WorkflowResult.merge_results d1 d2 = some out) :
    pyContains out k = (pyContains d1 k || pyContains d2 k)
    ∧ (pyContains d1 k = false → pyLookup out k = pyLookup d2 k)
    ∧ (pyContains d2 k = false → pyLookup out k = pyLookup d1 k)
    ∧ (isDictOpt (pyLookup d1 k) = true → pyContains d2 k = true →
        pyLookup out k = recMergeAt d1 d2 k ∧ (recMergeAt d1 d2 k).isSome = true)
    ∧ (pyContains d1 k = true → isDictOpt (pyLookup d1 k) = false →
        pyLookup out k = pyLookup d1 k) := by
  unfold WorkflowResult.merge_results at h
  obtain ⟨f, hf⟩ : ∃ f, dictSize d1 = f + 1 :=
    ⟨dictSize d1 - 1, by have := dictSize_pos d1; omega⟩
  rw [hf, mergeFuel_succ] at h
  by_cases hmem : k ∈ unionKeys d2 d1
  · obtain ⟨v, hhv, hout⟩ := mapOpt_lookup_mem h k hmem
    by_cases hc1 : pyContains d1 k = false
    · have hl1 : pyLookup d1 k = none := pyContains_false_lookup hc1
      have hhv2 : pyLookup d2 k = some v := by
        unfold mergeValWith at hhv
        rw [if_pos hc1] at hhv
        exact hhv
      have hc2 : pyContains d2 k = true := by rw [pyContains, hhv2]; rfl
      refine ⟨?_, ?_, ?_, ?_, ?_⟩
      · rw [pyContains, hout, hc1, hc2]; rfl
      · intro _; rw [hout, hhv2]
      · intro hcc; rw [hcc] at hc2; exact Bool.noConfusion hc2
      · intro hd _; rw [hl1] at hd; simp [isDictOpt] at hd
      · intro hcc _; rw [hcc] at hc1; exact Bool.noConfusion hc1
    · have hc1t : pyContains d1 k = true := by
        cases hx : pyContains d1 k
        · exact absurd hx hc1
        · rfl
      obtain ⟨v1, hl1⟩ := pyContains_true_lookup hc1t
      by_cases hc2 : pyContains d2 k = false
      · have hhv2 : pyLookup d1 k = some v := by
          unfold mergeValWith at hhv
          rw [if_neg hc1, if_pos hc2] at hhv
          exact hhv
        refine ⟨?_, ?_, ?_, ?_, ?_⟩
        · rw [pyContains, hout, hc1t]; rfl
        · intro hcc; rw [hcc] at hc1t; exact Bool.noConfusion hc1t
        · intro _; rw [hout, hhv2]
        · intro _ hcc; rw [hcc] at hc2; exact Bool.noConfusion hc2
        · intro _ _; rw [hout, hhv2]
      · have hc2t : pyContains d2 k = true := by
          cases hx : pyContains d2 k
          · exact absurd hx hc2
          · rfl
        obtain ⟨v2, hl2⟩ := pyContains_true_lookup hc2t
        have hhv2 := hhv
        unfold mergeValWith at hhv2
        rw [if_neg hc1, if_neg hc2, hl1, hl2] at hhv2
        cases v1 with
        | vstr s1 =>
          have hveq : some (Val.vstr s1) = some v := hhv2
          refine ⟨?_, ?_, ?_, ?_, ?_⟩
          · rw [pyContains, hout, hc1t]; rfl
          · intro hcc; rw [hcc] at hc1t; exact Bool.noConfusion hc1t
          · intro hcc; rw [hcc] at hc2t; exact Bool.noConfusion hc2t
          · intro hd _; rw [hl1] at hd; simp [isDictOpt] at hd
          · intro _ _; rw [hout, ← Option.some.inj hveq, hl1]
        | vbool b1 =>
          have hveq : some (Val.vbool b1) = some v := hhv2
          refine ⟨?_, ?_, ?_, ?_, ?_⟩
          · rw [pyContains, hout, hc1t]; rfl
          · intro hcc; rw [hcc] at hc1t; exact Bool.noConfusion hc1t
          · intro hcc; rw [hcc] at hc2t; exact Bool.noConfusion hc2t
          · intro hd _; rw [hl1] at hd; simp [isDictOpt] at hd
          · intro _ _; rw [hout, ← Option.some.inj hveq, hl1]
        | vdict m1 =>
          cases v2 with
          | vstr s2 => exact absurd (id hhv2) (by simp)
          | vbool b2 => exact absurd (id hhv2) (by simp)
          | vdict m2 =>
            have hhv3 : (mergeFuel f m1 m2).map Val.vdict = some v := hhv2
            obtain ⟨m, hmf, hveq⟩ : ∃ m, mergeFuel f m1 m2 = some m ∧ v = Val.vdict m := by
              cases hmf : mergeFuel f m1 m2 with
              | none => rw [hmf] at hhv3; simp at hhv3
              | some m =>
                rw [hmf] at hhv3
                simp only [Option.map_some'] at hhv3
                exact ⟨m, rfl, (Option.some.inj hhv3).symm⟩
            have hmr : WorkflowResult.merge_results m1 m2 = some m := by
              unfold WorkflowResult.merge_results
              have hsz := pyLookup_dictSize hl1
              rw [mergeFuel_fuel_irrel (dictSize m1) f m1 m2 (le_refl _) (by omega), hmf]
            have hrec : recMergeAt d1 d2 k = some (Val.vdict m) := by
              unfold recMergeAt
              rw [hl1, hl2]
              show (WorkflowResult.merge_results m1 m2).map Val.vdict = some (Val.vdict m)
              rw [hmr]
              rfl
            refine ⟨?_, ?_, ?_, ?_, ?_⟩
            · rw [pyContains, hout, hc1t]; rfl
            · intro hcc; rw [hcc] at hc1t; exact Bool.noConfusion hc1t
            · intro hcc; rw [hcc] at hc2t; exact Bool.noConfusion hc2t
            · intro _ _
              refine ⟨?_, ?_⟩
              · rw [hout, hveq, hrec]
              · rw [hrec]; rfl
            · intro _ hnd; rw [hl1] at hnd; simp [isDictOpt] at hnd
  · have hno : pyLookup out k = none := mapOpt_lookup_not_mem h k hmem
    have hc2 : pyContains d2 k = false := by
      cases hx : pyContains d2 k
      · rfl
      · exact absurd ((mem_unionKeys d2 d1 k).2 (Or.inl hx)) hmem
    have hc1 : pyContains d1 k = false := by
      cases hx : pyContains d1 k
      · rfl
      · exact absurd ((mem_unionKeys d2 d1 k).2 (Or.inr hx)) hmem
    refine ⟨?_, ?_, ?_, ?_, ?_⟩
    · rw [pyContains, hno, hc1, hc2]; rfl
    · intro _; rw [hno, pyContains_false_lookup hc2]
    · intro _; rw [hno, pyContains_false_lookup hc1]
    · intro hd _; rw [pyContains_false_lookup hc1] at hd; simp [isDictOpt] at hd
    · intro hcc _; rw [hcc] at hc1; exact Bool.noConfusion hc1

/-- Witness for `c1_merge_characterization` at the concrete mappings
`d1C` / `d2C`, whose merge succeeds and produces `outC`, instantiated at
the shared key `c` whose values are mapping-shaped on both sides. -/
theorem c1_merge_characterization_witness :
    pyContains outC "c" = (pyContains d1C "c" || pyContains d2C "c")
    ∧ (pyContains d1C "c" = false → pyLookup outC "c" = pyLookup d2C "c")
    ∧ (pyContains d2C "c" = false → pyLookup outC "c" = pyLookup d1C "c")
    ∧ (isDictOpt (pyLookup d1C "c") = true → pyContains d2C "c" = true →
        pyLookup outC "c" = recMergeAt d1C d2C "c"
          ∧ (recMergeAt d1C d2C "c").isSome = true)
    ∧ (pyContains d1C "c" = true → isDictOpt (pyLookup d1C "c") = false →
        pyLookup outC "c" = pyLookup d1C "c") :=
  c1_merge_characterization d1C d2C outC "c" (by rfl)

/-- C1 counterexample: at `newer = [("k", mapping)]`, `older = [("k",
scalar)]` the claim as stated requires the merge to return the mapping
with key set the union and `newer`'s value at `k` (the values are not
mapping-shaped on both sides, so per the claim the newer value should
silently win); the code instead recurses because the newer value alone
is mapping-shaped, and `{**dict2, **dict1}` inside the recursive call
raises `TypeError` on the scalar — so no mapping is returned at all
(modelled as `none`). -/
theorem c1_counterexample :
    WorkflowResult.merge_results [("k", Val.vdict [("a", Val.vstr "1")])]
      [("k", Val.vstr "s")] = none := by rfl

/-- C2 (amended): the deep-merge is a pure total Lean function (hence
deterministic and terminating on every pair of mapping trees), and it
returns a result without raising exactly on merge-compatible pairs: those
in which no shared key (recursively along mutually mapping-shaped values)
pairs a mapping-shaped newer value with a non-mapping older value.  On
all other pairs — the mapping-vs-scalar mismatches the original claim
explicitly included — it raises `TypeError` (modelled as `none`). -/
theorem c2_merge_total_iff_compat (d1 d2 : PyDict) :
    (WorkflowResult.merge_results d1 d2).isSome = compat d1 d2 :=
  mergeFuel_isSome_eq (dictSize d1) d1 d2

/-- C2 counterexample: the claim says the merge "terminates and returns a
result without raising any error" even when one side's value under a
shared key is a mapping and the other side's is a scalar; at `newer =
[("a", mapping)]`, `older = [("a", boolean)]` the code raises `TypeError`
(modelled as `none`), returning no result. -/
theorem c2_counterexample :
    WorkflowResult.merge_results [("a", Val.vdict [("x", Val.vstr "1")])]
      [("a", Val.vbool true)] = none ∧ compat [("a", Val.vdict [("x", Val.vstr "1")])]
      [("a", Val.vbool true)] = false := by
  exact ⟨rfl, rfl⟩

/-- C3 (code bug): the identity-uniqueness invariant fails.  Upserting
`srBX` (`build`/`x`), then `srBY` (`build`/`y`), then `srBY` again into an
empty store leaves the store holding two entries with the identity
`(build, y)`: on the rerun, `delete_step_result_by_name` deletes by
`step_name` alone while iterating over the list it mutates, so it removes
`srBX` at index 0, skips the matching `srBY` that slides into index 0,
and the merged entry is then appended next to it. -/
theorem c3_duplicate_identity_eval :
    wBXYY.map identityList = some [("build", "y"), ("build", "y")]
    ∧ wBXYY.isSome = true := ⟨rfl, rfl⟩

/-- C4 (code bug): the upsert frame condition fails.  Upserting `srBY`
(identity `(build, y)`) into the store `[srBX, srBY]` should, per the
claim, remove exactly the prior `(build, y)` entry and leave the
`(build, x)` entry untouched; instead the deletion loop removes `srBX`
(same `step_name`, different `sub_step_name`), skips the old `srBY`, and
appends the merged entry, producing identities
`[(build, y), (build, y)]`. -/
theorem c4_frame_violation_eval :
    (WorkflowResult.add_step_result ⟨[srBX, srBY]⟩ srBY).map identityList
      = some [("build", "y"), ("build", "y")] := by rfl

/-- C9 (code bug): upsert idempotence fails.  Starting from the store
`[srBX]`, a single upsert of `srBY` yields a rendered snapshot containing
the `tssc-results → build → x` entry, but upserting `srBY` twice yields a
snapshot without it (the second upsert deletes `srBX`, which shares
`step_name` `build`), even though both upserts succeed — so the two
rendered snapshots differ. -/
theorem c9_idempotence_violation_eval :
    ((wBXY.bind WorkflowResult.get_all_step_results).bind
        (fun d => getPath (Val.vdict d) ["tssc-results", "build", "x"])).isSome = true
    ∧ ((wBXYY.bind WorkflowResult.get_all_step_results).bind
        (fun d => getPath (Val.vdict d) ["tssc-results", "build", "x"])).isSome = false
    ∧ wBXYY.isSome = true := ⟨rfl, rfl, rfl⟩

theorem scanScoped_eq_spec (s ss a : String) :
    ∀ (l : List StepResult),
      (l.map (fun t => (t.step_name, t.sub_step_name))).Nodup →
      WorkflowResult.scanScopedLoop s ss a l
        = (match l.filter (fun t => t.step_name == s && t.sub_step_name == ss) with
           | [sr] => sr.get_artifact_value a
           | _ => none) := by
  intro l
  induction l with
  | nil => intro _; rfl
  | cons sr rest ih =>
    intro hnd
    rw [List.map_cons, List.nodup_cons] at hnd
    obtain ⟨hni, hnd2⟩ := hnd
    by_cases hs : sr.step_name = s
    · by_cases hss : sr.sub_step_name = ss
      · have hpred : (sr.step_name == s && sr.sub_step_name == ss) = true := by
          simp [hs, hss]
        have hfr : rest.filter (fun t => t.step_name == s && t.sub_step_name == ss)
            = [] := by
          rw [List.filter_eq_nil_iff]
          intro t ht hpt
          apply hni
          simp only [Bool.and_eq_true, beq_iff_eq] at hpt
          refine List.mem_map.2 ⟨t, ht, ?_⟩
          rw [hpt.1, hpt.2, hs, hss]
        rw [List.filter_cons, if_pos hpred, hfr]
        show WorkflowResult.scanScopedLoop s ss a (sr :: rest)
          = sr.get_artifact_value a
        simp [WorkflowResult.scanScopedLoop, hs, hss]
      · have hpred : (sr.step_name == s && sr.sub_step_name == ss) = false := by
          simp [hss]
        rw [List.filter_cons, if_neg (by rw [hpred]; exact Bool.noConfusion)]
        rw [← ih hnd2]
        simp [WorkflowResult.scanScopedLoop, hs, hss]
    · have hpred : (sr.step_name == s && sr.sub_step_name == ss) = false := by
        simp [hs]
      rw [List.filter_cons, if_neg (by rw [hpred]; exact Bool.noConfusion)]
      rw [← ih hnd2]
      simp [WorkflowResult.scanScopedLoop, hs]

/-- C5 (confirmed): with both `stage_name` and `sub_stage_name` given, the
query returns the artifact of that name from the unique entry with that
exact identity — absent when no entry has that identity or that entry has
no such artifact — and never falls back to entries with a different
sub-stage name or to an unscoped search.  Stated for stores satisfying
the identity-uniqueness invariant (so "the unique entry" is
well-defined), as equality with the spec-side `specScopedQuery`. -/
theorem c5_scoped_query (w : WorkflowResult) (s ss a : String)
    (h : (w.workflow_list.map (fun t => (t.step_name, t.sub_step_name))).Nodup) :
    w.get_artifact_value a (some s) (some ss) = specScopedQuery w s ss a := by
  show WorkflowResult.scanScopedLoop s ss a w.workflow_list = _
  rw [scanScoped_eq_spec s ss a w.workflow_list h]
  rfl

/-- Witness for `c5_scoped_query` on the two-entry store
`[srBX, srBY]` (identities `(build, x)` and `(build, y)`), queried for
artifact `v` scoped to `(build, y)`. -/
theorem c5_scoped_query_witness :
    WorkflowResult.get_artifact_value ⟨[srBX, srBY]⟩ "v" (some "build") (some "y")
      = specScopedQuery ⟨[srBX, srBY]⟩ "build" "y" "v" :=
  c5_scoped_query ⟨[srBX, srBY]⟩ "build" "y" "v" (by decide)

theorem scanStep_eq_spec (s a : String) :
    ∀ l : List StepResult,
      WorkflowResult.scanStepLoop s a l none
        = (l.find? (fun t => t.step_name == s && (t.get_artifact_value a).isSome)).bind
            (fun t => t.get_artifact_value a) := by
  intro l
  induction l with
  | nil => rfl
  | cons sr rest ih =>
    by_cases hs : sr.step_name = s
    · have hbeq : (sr.step_name == s) = true := by simp [hs]
      cases hv : sr.get_artifact_value a with
      | some v =>
        simp [WorkflowResult.scanStepLoop, List.find?_cons, hs, hbeq, hv]
      | none =>
        simp [WorkflowResult.scanStepLoop, List.find?_cons, hs, hbeq, hv, ih]
    · have hbeq : (sr.step_name == s) = false := by simp [hs]
      simp [WorkflowResult.scanStepLoop, List.find?_cons, hs, hbeq, ih]

theorem scanAll_eq_spec (a : String) :
    ∀ l : List StepResult,
      WorkflowResult.scanAllLoop a l none
        = (l.find? (fun t => (t.get_artifact_value a).isSome)).bind
            (fun t => t.get_artifact_value a) := by
  intro l
  induction l with
  | nil => rfl
  | cons sr rest ih =>
    cases hv : sr.get_artifact_value a with
    | some v =>
      simp [WorkflowResult.scanAllLoop, List.find?_cons, hv]
    | none =>
      simp [WorkflowResult.scanAllLoop, List.find?_cons, hv, ih]

/-- C6 (confirmed): with only `stage_name` given, the query returns the
artifact value from the first entry in store order whose `step_name`
matches and which has an artifact of that name; with neither scope given
it returns the artifact value from the first entry in store order that
has one; in both modes the result is absent when no entry qualifies.
Stated as equality with the spec-side `specStageQuery` / `specAnyQuery`. -/
theorem c6_order_query (w : WorkflowResult) (s a : String) :
    w.get_artifact_value a (some s) none = specStageQuery w s a
    ∧ w.get_artifact_value a none none = specAnyQuery w a :=
  ⟨scanStep_eq_spec s a w.workflow_list, scanAll_eq_spec a w.workflow_list⟩

theorem folder_create_file (fs : FileSys) :
    (WorkflowResult.folder_create fs).file = fs.file := by
  unfold WorkflowResult.folder_create
  split_ifs <;> rfl

/-- C7 (confirmed): loading a path that does not exist, or that exists
with zero-length content, returns a fresh empty store without raising;
loading a path whose non-empty content deserializes to anything other
than a `WorkflowResult` raises a `TSSCException` to the caller rather
than silently returning an empty store. -/
theorem c7_load_contract (fsA fsB fsC : FileSys)
    (hA : fsA.file = none)
    (hB : fsB.file = some FileContent.emptyFile)
    (hC : fsC.file = some (FileContent.pickled PickleValue.otherData)) :
    (WorkflowResult.load_from_pickle_file fsA).2 = Except.ok ⟨[]⟩
    ∧ (WorkflowResult.load_from_pickle_file fsB).2 = Except.ok ⟨[]⟩
    ∧ (WorkflowResult.load_from_pickle_file fsC).2
        = Except.error "has invalid data" := by
  refine ⟨?_, ?_, ?_⟩
  · unfold WorkflowResult.load_from_pickle_file
    rw [folder_create_file, hA]
  · unfold WorkflowResult.load_from_pickle_file
    rw [folder_create_file, hB]
  · unfold WorkflowResult.load_from_pickle_file
    rw [folder_create_file, hC]

/-- Witness for `c7_load_contract`: a missing file, a zero-length file,
and a file whose pickled content is not a `WorkflowResult`, each at a
concrete filesystem state. -/
theorem c7_load_contract_witness :
    (WorkflowResult.load_from_pickle_file ⟨true, true, none⟩).2 = Except.ok ⟨[]⟩
    ∧ (WorkflowResult.load_from_pickle_file
        ⟨false, false, some FileContent.emptyFile⟩).2 = Except.ok ⟨[]⟩
    ∧ (WorkflowResult.load_from_pickle_file
        ⟨true, false, some (FileContent.pickled PickleValue.otherData)⟩).2
        = Except.error "has invalid data" :=
  c7_load_contract _ _ _ rfl rfl rfl

/-- C8 (confirmed): writing a store's binary snapshot and loading it back
yields exactly the original store — hence a store whose rendered snapshot
(`get_all_step_results` output) is identical to the original's, with
entry order, identities and types preserved.  The pickle codec itself is
modelled as exact (stdlib `pickle` round-trips the object graph). -/
theorem c8_roundtrip (w : WorkflowResult) (fs : FileSys) :
    (WorkflowResult.load_from_pickle_file (WorkflowResult.write_to_pickle_file w fs)).2
      = Except.ok w
    ∧ ((WorkflowResult.load_from_pickle_file
          (WorkflowResult.write_to_pickle_file w fs)).2).map
        WorkflowResult.get_all_step_results
      = Except.ok (WorkflowResult.get_all_step_results w) := by
  have hfile : (WorkflowResult.write_to_pickle_file w fs).file
      = some (FileContent.pickled (PickleValue.workflowResult w)) := rfl
  refine ⟨?_, ?_⟩
  · unfold WorkflowResult.load_from_pickle_file
    rw [folder_create_file, hfile]
  · unfold WorkflowResult.load_from_pickle_file
    rw [folder_create_file, hfile]
    rfl

/-- C10 (confirmed): `load_from_pickle_file` calls `folder_create` before
checking whether the file exists, so for any path whose (non-empty)
parent directory does not exist, even a load that returns a fresh empty
store because the file is missing creates that directory — the
filesystem state after the call differs from the one before. -/
theorem c10_load_creates_parent_dir (fs : FileSys)
    (h1 : fs.parentNonempty = true) (h2 : fs.dirExists = false)
    (h3 : fs.file = none) :
    (WorkflowResult.load_from_pickle_file fs).1.dirExists = true
    ∧ fs.dirExists = false
    ∧ (WorkflowResult.load_from_pickle_file fs).2 = Except.ok ⟨[]⟩ := by
  have hfc : WorkflowResult.folder_create fs = { fs with dirExists := true } := by
    unfold WorkflowResult.folder_create
    rw [if_pos (by rw [h1, h2]; rfl)]
  refine ⟨?_, h2, ?_⟩
  · unfold WorkflowResult.load_from_pickle_file
    rw [folder_create_file, h3, hfc]
  · unfold WorkflowResult.load_from_pickle_file
    rw [folder_create_file, h3]

/-- Witness for `c10_load_creates_parent_dir`: a concrete filesystem
state with a missing parent directory and no snapshot file. -/
theorem c10_load_creates_parent_dir_witness :
    (WorkflowResult.load_from_pickle_file ⟨true, false, none⟩).1.dirExists = true
    ∧ (⟨true, false, none⟩ : FileSys).dirExists = false
    ∧ (WorkflowResult.load_from_pickle_file ⟨true, false, none⟩).2
        = Except.ok ⟨[]⟩ :=
  c10_load_creates_parent_dir ⟨true, false, none⟩ rfl rfl rfl
